import Mathlib

/-!
Verification of the response-normalization adapter
`CustomOpenAICompatibleModel` from `src/mytests/custom_model_example.py`.

The adapter wraps an OpenAI-compatible asynchronous client.  Its `__call__`
builds a request from the configured model parameters and the given messages,
invokes the client, and normalizes the result: a single `ChatResponse` for a
non-streaming call, a sequence of cumulative `ChatResponse` values for a
streaming call, and an error `ChatResponse` when the transport raises.

The embedding below translates that module into pure Lean functions:
the asynchronous stream becomes a list of chunks, wall-clock elapsed time
becomes an explicit rational parameter, and the underlying client becomes a
function from the built request to a transport result.
-/

namespace CustomModelSpec

/-- Content segment of a normalized response (agentscope message blocks:
text, thinking, and tool-use segments).  The adapter under verification only
ever constructs `text` segments (`TextBlock(type="text", text=...)`). -/
inductive ContentBlock where
  | text (text : String)
  | thinking (thinking : String)
  | tool_use (name : String) (input : String)
deriving DecidableEq, Repr

/-- Usage record (`agentscope.model._model_usage.ChatUsage`): input and
output token counts and elapsed wall-clock seconds. -/
structure ChatUsage where
  input_tokens : Nat
  output_tokens : Nat
  time : ℚ
deriving DecidableEq, Repr

/-- Normalized response (`agentscope.model.ChatResponse`): an ordered list of
content segments plus an optional usage record. -/
structure ChatResponse where
  content : List ContentBlock
  usage : Option ChatUsage
deriving DecidableEq, Repr

/-- A chat message as passed to the adapter: a role-tagged dict. -/
structure ChatMessage where
  role : String
  content : String
deriving DecidableEq, Repr

/-- A tool descriptor, passed through unmodified to the transport. -/
structure ToolDescriptor where
  name : String
  description : String
  parameters : String
deriving DecidableEq, Repr

/-- Constructor-time configuration of `CustomOpenAICompatibleModel.__init__`:
model name, credentials, streaming flag, sampling parameters. -/
structure ModelConfig where
  model_name : String
  api_key : String
  base_url : String
  stream : Bool
  temperature : ℚ
  max_tokens : Nat
deriving DecidableEq, Repr

/-- The request assembled in `__call__` (`request_kwargs`): keys absent from
the dict are `none` here. -/
structure Request where
  model : String
  messages : List ChatMessage
  stream : Bool
  temperature : ℚ
  max_tokens : Nat
  tools : Option (List ToolDescriptor)
  tool_choice : Option String
deriving DecidableEq, Repr

/-- The message object of one completion choice; `content` is `none` when the
field is `None` in the client's response. -/
structure ApiMessage where
  content : Option String
deriving DecidableEq, Repr

/-- One completion choice of a non-streaming client response. -/
structure ApiChoice where
  message : ApiMessage
deriving DecidableEq, Repr

/-- Token counters reported by the client; either may be `None`. -/
structure ApiUsage where
  prompt_tokens : Option Nat
  completion_tokens : Option Nat
deriving DecidableEq, Repr

/-- A non-streaming client response: a list of choices and optional usage. -/
structure ApiResponse where
  choices : List ApiChoice
  usage : Option ApiUsage
deriving DecidableEq, Repr

/-- The delta carried by one choice of a streaming chunk. -/
structure Delta where
  content : Option String
deriving DecidableEq, Repr

/-- One choice of a streaming chunk. -/
structure StreamChoice where
  delta : Delta
deriving DecidableEq, Repr

/-- One incremental chunk received from the streaming transport. -/
structure Chunk where
  choices : List StreamChoice
deriving DecidableEq, Repr

/-- Result of the underlying `client.chat.completions.create(...)` call: the
OpenAI client returns a stream of chunks exactly when the request's `stream`
flag is set, a completed response when it is not, or raises.  `raises e`
carries `str(e)`. -/
inductive TransportResult where
  | streamed (chunks : List Chunk)
  | completed (r : ApiResponse)
  | raises (e : String)
deriving DecidableEq, Repr

/-- Result of `__call__`: either one `ChatResponse` or the (finite, already
materialized) sequence an async generator would yield. -/
inductive CallResult where
  | single (r : ChatResponse)
  | stream (rs : List ChatResponse)
deriving DecidableEq, Repr

/-- The `request_kwargs` dict built at the top of `__call__`: `tools` and
`tool_choice` are added only when Python-truthy (non-`None` and non-empty). -/
def buildRequest (m : ModelConfig) (messages : List ChatMessage)
    (tools : Option (List ToolDescriptor)) (tool_choice : Option String) :
    Request :=
  { model := m.model_name
    messages := messages
    stream := m.stream
    temperature := m.temperature
    max_tokens := m.max_tokens
    tools :=
      match tools with
      | none => none
      | some ts => if ts.isEmpty then none else some ts
    tool_choice :=
      match tool_choice with
      | none => none
      | some tc => if tc = "" then none else some tc }

/-- The error response built in the `except` block of `__call__`:
`ChatResponse(content=[TextBlock(type="text", text=f"模型调用失败: {str(e)}")], usage=None)`. -/
def errorResponse (e : String) : ChatResponse :=
  { content := [ContentBlock.text ("模型调用失败: " ++ e)], usage := none }

/-- `CustomOpenAICompatibleModel._parse_response`: maps the first choice's
message content (when Python-truthy, i.e. neither `None` nor `""`) to a
single text segment, and the client's usage counters (`or 0` on each) plus
elapsed time to a usage record. -/
def parse_response (response : ApiResponse) (elapsed : ℚ) : ChatResponse :=
  { content :=
      match response.choices with
      | [] => []
      | choice :: _ =>
        match choice.message.content with
        | none => []
        | some s => if s = "" then [] else [ContentBlock.text s]
    usage :=
      match response.usage with
      | none => none
      | some u =>
        some { input_tokens := u.prompt_tokens.getD 0
               output_tokens := u.completion_tokens.getD 0
               time := elapsed } }

/-- The guard `chunk.choices and chunk.choices[0].delta.content` of
`_parse_stream_response`: the delta text of a chunk when the chunk has a
first choice whose delta content is Python-truthy (non-`None`, non-empty). -/
def chunkText (chunk : Chunk) : Option String :=
  match chunk.choices with
  | [] => none
  | choice :: _ =>
    match choice.delta.content with
    | none => none
    | some s => if s = "" then none else some s

/-- The first choice's delta content of a chunk, without the truthiness
filter (used to state the spec's "concatenation of all chunk deltas"). -/
def firstDelta (chunk : Chunk) : Option String :=
  match chunk.choices with
  | [] => none
  | choice :: _ => choice.delta.content

/-- Body of the loop of `CustomOpenAICompatibleModel._parse_stream_response`:
one cumulative `ChatResponse` without usage per chunk with truthy delta
content, then, after the stream is exhausted, one final `ChatResponse`
repeating the accumulated text and carrying the usage record (token counts
zero, `time` the elapsed seconds at the end of the stream). -/
def parse_stream_aux (elapsed : ℚ) (accumulated_text : String) :
    List Chunk → List ChatResponse
  | [] =>
    [{ content := [ContentBlock.text accumulated_text]
       usage := some { input_tokens := 0, output_tokens := 0, time := elapsed } }]
  | chunk :: rest =>
    match chunkText chunk with
    | none => parse_stream_aux elapsed accumulated_text rest
    | some s =>
      { content := [ContentBlock.text (accumulated_text ++ s)]
        usage := none } ::
        parse_stream_aux elapsed (accumulated_text ++ s) rest

/-- `CustomOpenAICompatibleModel._parse_stream_response`: the accumulator
starts empty. -/
def parse_stream_response (chunks : List Chunk) (elapsed : ℚ) :
    List ChatResponse :=
  parse_stream_aux elapsed "" chunks

/-- `CustomOpenAICompatibleModel.__call__`: builds the request, invokes the
transport, and dispatches on `self.stream`.  When the transport raises, the
`except` block converts the exception into a single error response.  The two
`none` results cover a transport whose result shape disagrees with the
configured `stream` flag; the OpenAI client never produces that shape, and
the source's behavior there rests on dynamic typing outside this model. -/
def call (m : ModelConfig) (messages : List ChatMessage)
    (tools : Option (List ToolDescriptor)) (tool_choice : Option String)
    (transport : Request → TransportResult) (elapsed : ℚ) :
    Option CallResult :=
  match transport (buildRequest m messages tools tool_choice) with
  | TransportResult.raises e => some (CallResult.single (errorResponse e))
  | TransportResult.streamed chunks =>
    if m.stream then
      some (CallResult.stream (parse_stream_response chunks elapsed))
    else none
  | TransportResult.completed r =>
    if m.stream then none
    else some (CallResult.single (parse_response r elapsed))

/-- The text of the first content segment of a response (all responses built
by the streaming parser have exactly one text segment). -/
def textOf (r : ChatResponse) : String :=
  match r.content with
  | ContentBlock.text s :: _ => s
  | _ => ""

/-- Concatenation of a list of strings. -/
def strConcat : List String → String
  | [] => ""
  | s :: rest => s ++ strConcat rest

/-- Closed form of the streaming parser on the filtered delta texts: one
cumulative value per delta, then the final value with the usage record. -/
def mkStream (elapsed : ℚ) (acc : String) : List String → List ChatResponse
  | [] =>
    [{ content := [ContentBlock.text acc]
       usage := some { input_tokens := 0, output_tokens := 0, time := elapsed } }]
  | s :: rest =>
    { content := [ContentBlock.text (acc ++ s)], usage := none } ::
      mkStream elapsed (acc ++ s) rest

/-- A streaming chunk with one choice whose delta carries `s`. -/
def sampleChunk (s : String) : Chunk :=
  { choices := [{ delta := { content := some s } }] }

/-- A streaming chunk with no choices. -/
def emptyChunk : Chunk :=
  { choices := [] }

theorem strConcat_append (a b : List String) :
    strConcat (a ++ b) = strConcat a ++ strConcat b := by
  induction a with
  | nil => simp [strConcat, String.empty_append]
  | cons s rest ih => simp [strConcat, ih, String.append_assoc]

theorem parse_stream_aux_eq_mkStream (elapsed : ℚ) (acc : String)
    (chunks : List Chunk) :
    parse_stream_aux elapsed acc chunks =
      mkStream elapsed acc (chunks.filterMap chunkText) := by
  induction chunks generalizing acc with
  | nil => rfl
  | cons c rest ih =>
    cases h : chunkText c with
    | none => simp [parse_stream_aux, h, List.filterMap_cons, ih]
    | some s => simp [parse_stream_aux, h, List.filterMap_cons, ih, mkStream]

theorem mkStream_length (elapsed : ℚ) (acc : String) (ds : List String) :
    (mkStream elapsed acc ds).length = ds.length + 1 := by
  induction ds generalizing acc with
  | nil => rfl
  | cons s rest ih => simp [mkStream, ih]

theorem mkStream_get (elapsed : ℚ) (ds : List String) (acc : String) (i : Nat)
    (h : i < (mkStream elapsed acc ds).length) :
    (mkStream elapsed acc ds).get ⟨i, h⟩ =
      { content := [ContentBlock.text (acc ++ strConcat (ds.take (i + 1)))]
        usage :=
          if i = ds.length then
            some { input_tokens := 0, output_tokens := 0, time := elapsed }
          else none } := by
  induction ds generalizing acc i with
  | nil =>
    have hi : i = 0 := by
      have := h
      simp [mkStream] at this
      omega
    subst hi
    simp [mkStream, strConcat, String.append_empty]
  | cons s rest ih =>
    cases i with
    | zero =>
      simp [mkStream, strConcat, String.append_empty]
    | succ j =>
      have hj : j < (mkStream elapsed (acc ++ s) rest).length := by
        have := h
        simp [mkStream, mkStream_length] at this ⊢
        omega
      have step :
          (mkStream elapsed acc (s :: rest)).get ⟨j + 1, h⟩ =
            (mkStream elapsed (acc ++ s) rest).get ⟨j, hj⟩ := rfl
      rw [step, ih]
      simp [strConcat, String.append_assoc]

theorem stream_length (chunks : List Chunk) (elapsed : ℚ) :
    (parse_stream_response chunks elapsed).length =
      (chunks.filterMap chunkText).length + 1 := by
  rw [parse_stream_response, parse_stream_aux_eq_mkStream, mkStream_length]

theorem stream_get (chunks : List Chunk) (elapsed : ℚ) (i : Nat)
    (h : i < (parse_stream_response chunks elapsed).length) :
    (parse_stream_response chunks elapsed).get ⟨i, h⟩ =
      { content :=
          [ContentBlock.text
            (strConcat ((chunks.filterMap chunkText).take (i + 1)))]
        usage :=
          if i = (chunks.filterMap chunkText).length then
            some { input_tokens := 0, output_tokens := 0, time := elapsed }
          else none } := by
  have heq : parse_stream_response chunks elapsed =
      mkStream elapsed "" (chunks.filterMap chunkText) := by
    rw [parse_stream_response, parse_stream_aux_eq_mkStream]
  rw [List.get_of_eq heq, mkStream_get, String.empty_append]

theorem chunkText_ne_empty {c : Chunk} {s : String}
    (h : chunkText c = some s) : s ≠ "" := by
  rcases c with ⟨_ | ⟨choice, rest⟩⟩
  · simp [chunkText] at h
  · rcases hct : choice.delta.content with _ | t
    · simp [chunkText, hct] at h
    · by_cases ht : t = ""
      · simp [chunkText, hct, ht] at h
      · simp [chunkText, hct, ht] at h
        rw [← h]; exact ht

theorem deltas_ne_empty {chunks : List Chunk} {s : String}
    (h : s ∈ chunks.filterMap chunkText) : s ≠ "" := by
  rcases List.mem_filterMap.mp h with ⟨c, _, hc⟩
  exact chunkText_ne_empty hc

theorem firstDelta_of_chunkText_none {c : Chunk} (h : chunkText c = none) :
    (firstDelta c).getD "" = "" := by
  rcases c with ⟨_ | ⟨choice, crest⟩⟩
  · rfl
  · rcases hct : choice.delta.content with _ | t
    · simp [firstDelta, hct]
    · by_cases ht : t = ""
      · simp [firstDelta, hct, ht]
      · simp [chunkText, hct, ht] at h

theorem firstDelta_of_chunkText_some {c : Chunk} {s : String}
    (h : chunkText c = some s) : (firstDelta c).getD "" = s := by
  rcases c with ⟨_ | ⟨choice, crest⟩⟩
  · simp [chunkText] at h
  · rcases hct : choice.delta.content with _ | t
    · simp [chunkText, hct] at h
    · by_cases ht : t = ""
      · simp [chunkText, hct, ht] at h
      · simp [chunkText, hct, ht] at h
        simp [firstDelta, hct, h]

theorem strConcat_firstDelta (chunks : List Chunk) :
    strConcat (chunks.map fun c => (firstDelta c).getD "") =
      strConcat (chunks.filterMap chunkText) := by
  induction chunks with
  | nil => rfl
  | cons c rest ih =>
    have hmap : (c :: rest).map (fun c => (firstDelta c).getD "") =
        (firstDelta c).getD "" :: rest.map (fun c => (firstDelta c).getD "") :=
      rfl
    rw [hmap, List.filterMap_cons]
    cases hc : chunkText c with
    | none =>
      rw [strConcat, firstDelta_of_chunkText_none hc, String.empty_append, ih]
    | some s =>
      rw [strConcat, firstDelta_of_chunkText_some hc, strConcat, ih]

theorem length_filterMap_eq_countP (chunks : List Chunk) :
    (chunks.filterMap chunkText).length =
      chunks.countP (fun c => (chunkText c).isSome) := by
  induction chunks with
  | nil => rfl
  | cons c rest ih =>
    cases h : chunkText c <;>
      simp [List.filterMap_cons, h, List.countP_cons, ih]

theorem str_length_pos {s : String} (h : s ≠ "") : 0 < s.length := by
  cases s with
  | mk l =>
    cases l with
    | nil => simp at h
    | cons c t => simp [String.length]

theorem stream_textOf_get (chunks : List Chunk) (elapsed : ℚ) (i : Nat)
    (h : i < (parse_stream_response chunks elapsed).length) :
    textOf ((parse_stream_response chunks elapsed).get ⟨i, h⟩) =
      strConcat ((chunks.filterMap chunkText).take (i + 1)) := by
  rw [stream_get]
  rfl

theorem stream_consecutive_ext (chunks : List Chunk) (elapsed : ℚ) (i : Nat)
    (h : i + 1 < (parse_stream_response chunks elapsed).length) :
    ∃ t,
      textOf ((parse_stream_response chunks elapsed).get ⟨i, by omega⟩) ++ t =
        textOf ((parse_stream_response chunks elapsed).get ⟨i + 1, h⟩) := by
  rw [stream_textOf_get, stream_textOf_get]
  refine ⟨strConcat ((chunks.filterMap chunkText)[i + 1]?).toList, ?_⟩
  rw [← strConcat_append, ← List.take_succ]

theorem stream_consecutive_eq_iff (chunks : List Chunk) (elapsed : ℚ) (i : Nat)
    (h : i + 1 < (parse_stream_response chunks elapsed).length) :
    (textOf ((parse_stream_response chunks elapsed).get ⟨i, by omega⟩) =
      textOf ((parse_stream_response chunks elapsed).get ⟨i + 1, h⟩)) ↔
      i + 2 = (parse_stream_response chunks elapsed).length := by
  have hlen := stream_length chunks elapsed
  rw [stream_textOf_get, stream_textOf_get]
  by_cases hc : i + 1 = (chunks.filterMap chunkText).length
  · have h1 : (chunks.filterMap chunkText).take (i + 1) =
        chunks.filterMap chunkText := List.take_of_length_le (by omega)
    have h2 : (chunks.filterMap chunkText).take (i + 1 + 1) =
        chunks.filterMap chunkText := List.take_of_length_le (by omega)
    rw [h1, h2]
    exact iff_of_true rfl (by omega)
  · have hlt : i + 1 < (chunks.filterMap chunkText).length := by omega
    have hel : (chunks.filterMap chunkText)[i + 1]? =
        some ((chunks.filterMap chunkText).get ⟨i + 1, hlt⟩) := by
      rw [List.getElem?_eq_getElem hlt, List.get_eq_getElem]
    have hne : (chunks.filterMap chunkText).get ⟨i + 1, hlt⟩ ≠ "" :=
      deltas_ne_empty (List.get_mem _ _ _)
    apply iff_of_false
    · intro heq
      nth_rewrite 2 [List.take_succ] at heq
      rw [hel, strConcat_append] at heq
      have hlength := congrArg String.length heq
      rw [String.length_append] at hlength
      simp only [Option.toList_some, strConcat, String.append_empty] at hlength
      have hpos := str_length_pos hne
      omega
    · omega

theorem stream_usage_get (chunks : List Chunk) (elapsed : ℚ) (i : Nat)
    (h : i < (parse_stream_response chunks elapsed).length) :
    ((parse_stream_response chunks elapsed).get ⟨i, h⟩).usage =
      if i = (chunks.filterMap chunkText).length then
        some { input_tokens := 0, output_tokens := 0, time := elapsed }
      else none := by
  rw [stream_get]

theorem stream_getLast (chunks : List Chunk) (elapsed : ℚ) :
    (parse_stream_response chunks elapsed).getLast? =
      some { content :=
               [ContentBlock.text (strConcat (chunks.filterMap chunkText))]
             usage :=
               some { input_tokens := 0, output_tokens := 0, time := elapsed } } := by
  have hlen := stream_length chunks elapsed
  have hlt : (chunks.filterMap chunkText).length <
      (parse_stream_response chunks elapsed).length := by omega
  rw [List.getLast?_eq_getElem? _, hlen, Nat.add_sub_cancel,
    List.getElem?_eq_getElem hlt, ← List.get_eq_getElem _ ⟨_, hlt⟩, stream_get]
  simp [List.take_of_length_le (Nat.le_succ _)]

end CustomModelSpec

namespace CustomModelSpec

/-- Claim C1: for every input (any message list, tools, tool choice, and
either streaming configuration), if the underlying transport raises, the
adapter returns a single `ChatResponse` whose content is exactly one text
segment describing the failure and whose usage is absent; no exception
propagates. -/
theorem C1_transport_error_yields_single_error_text
    (m : ModelConfig) (messages : List ChatMessage)
    (tools : Option (List ToolDescriptor)) (tool_choice : Option String)
    (transport : Request → TransportResult) (elapsed : ℚ) (e : String)
    (h : transport (buildRequest m messages tools tool_choice) =
      TransportResult.raises e) :
    call m messages tools tool_choice transport elapsed =
      some (CallResult.single
        { content := [ContentBlock.text ("模型调用失败: " ++ e)]
          usage := none }) := by
  simp [call, h, errorResponse]

/-- Witness for C1 at a concrete input: a transport that always raises. -/
theorem C1_witness :
    call { model_name := "m", api_key := "k", base_url := "u", stream := true,
           temperature := 1, max_tokens := 16 }
        [{ role := "user", content := "1+1=?" }] none none
        (fun _ => TransportResult.raises "boom") 0 =
      some (CallResult.single
        { content := [ContentBlock.text ("模型调用失败: " ++ "boom")]
          usage := none }) :=
  C1_transport_error_yields_single_error_text _ _ _ _ _ _ "boom" rfl

/-- Claim C2 counterexample: on the one-chunk stream with delta `"a"`, the
produced sequence has two values with the same text `"a"` (the final value
repeats the accumulated text), so it is false that every successive value's
text is a strict prefix-extension of the previous one. -/
theorem C2_counterexample :
    (parse_stream_response [sampleChunk "a"] 0).length = 2 ∧
    ¬ (∀ i (h : i + 1 < (parse_stream_response [sampleChunk "a"] 0).length),
        (∃ t,
          textOf ((parse_stream_response [sampleChunk "a"] 0).get
              ⟨i, by omega⟩) ++ t =
            textOf ((parse_stream_response [sampleChunk "a"] 0).get
              ⟨i + 1, h⟩)) ∧
        textOf ((parse_stream_response [sampleChunk "a"] 0).get
            ⟨i, by omega⟩) ≠
          textOf ((parse_stream_response [sampleChunk "a"] 0).get
            ⟨i + 1, h⟩)) := by
  refine ⟨by decide, fun hall => ?_⟩
  exact (hall 0 (by decide)).2 (by decide)

/-- Claim C2 (amended): in the streaming sequence each successive value's
text extends the previous one (the previous text is a prefix of the next),
the extension is strict exactly when the successor is not the final value
(the final value repeats the last accumulated text), and the final value
carries the usage record. -/
theorem C2_amended_stream_prefix_extension (chunks : List Chunk)
    (elapsed : ℚ) :
    (∀ i (h : i + 1 < (parse_stream_response chunks elapsed).length),
      (∃ t,
        textOf ((parse_stream_response chunks elapsed).get ⟨i, by omega⟩) ++
            t =
          textOf ((parse_stream_response chunks elapsed).get ⟨i + 1, h⟩)) ∧
      ((textOf ((parse_stream_response chunks elapsed).get ⟨i, by omega⟩) =
          textOf ((parse_stream_response chunks elapsed).get ⟨i + 1, h⟩)) ↔
        i + 2 = (parse_stream_response chunks elapsed).length)) ∧
    (∃ r u, (parse_stream_response chunks elapsed).getLast? = some r ∧
      r.usage = some u) := by
  refine ⟨fun i h => ⟨stream_consecutive_ext chunks elapsed i h,
    stream_consecutive_eq_iff chunks elapsed i h⟩, ?_⟩
  exact ⟨_, _, stream_getLast chunks elapsed, rfl⟩

/-- Witness for C2 (amended) on the two-chunk stream `"a"`, `"b"`: the first
pair of values strictly extends, and the step to the final value does not. -/
theorem C2_witness :
    ((∃ t,
        textOf ((parse_stream_response [sampleChunk "a", sampleChunk "b"]
            0).get ⟨0, by decide⟩) ++ t =
          textOf ((parse_stream_response [sampleChunk "a", sampleChunk "b"]
            0).get ⟨1, by decide⟩)) ∧
      ((textOf ((parse_stream_response [sampleChunk "a", sampleChunk "b"]
            0).get ⟨0, by decide⟩) =
          textOf ((parse_stream_response [sampleChunk "a", sampleChunk "b"]
            0).get ⟨1, by decide⟩)) ↔
        0 + 2 =
          (parse_stream_response [sampleChunk "a", sampleChunk "b"]
            0).length)) ∧
    (∃ r u,
      (parse_stream_response [sampleChunk "a", sampleChunk "b"]
          0).getLast? = some r ∧ r.usage = some u) :=
  ⟨(C2_amended_stream_prefix_extension [sampleChunk "a", sampleChunk "b"]
      0).1 0 (by decide),
   (C2_amended_stream_prefix_extension [sampleChunk "a", sampleChunk "b"]
      0).2⟩

/-- Claim C3 counterexample: on the empty stream the adapter produces one
value (the final one), not zero, so the sequence does not contain exactly
one value per incremental chunk received. -/
theorem C3_counterexample :
    (parse_stream_response ([] : List Chunk) 0).length ≠
      ([] : List Chunk).length := by
  decide

/-- Claim C3 (amended): a streaming call produces a finite sequence with one
value per chunk whose first choice carries non-empty delta content, plus one
trailing final value; each value's text is the full accumulated text so far
(the concatenation of the delta texts consumed up to and including it). -/
theorem C3_amended_one_value_per_contentful_chunk (chunks : List Chunk)
    (elapsed : ℚ) :
    (parse_stream_response chunks elapsed).length =
      (chunks.filterMap chunkText).length + 1 ∧
    ∀ i (h : i < (parse_stream_response chunks elapsed).length),
      ((parse_stream_response chunks elapsed).get ⟨i, h⟩).content =
        [ContentBlock.text
          (strConcat ((chunks.filterMap chunkText).take (i + 1)))] := by
  refine ⟨stream_length chunks elapsed, fun i h => ?_⟩
  rw [stream_get]

/-- Witness for C3 (amended): a stream of one contentful chunk `"hi"` and
one chunk without choices produces two values, the second with text
`"hi"`. -/
theorem C3_witness :
    (parse_stream_response [sampleChunk "hi", emptyChunk] 0).length = 2 ∧
    ((parse_stream_response [sampleChunk "hi", emptyChunk] 0).get
        ⟨1, by decide⟩).content = [ContentBlock.text "hi"] :=
  ⟨((C3_amended_one_value_per_contentful_chunk [sampleChunk "hi", emptyChunk]
      0).1).trans (by decide),
   ((C3_amended_one_value_per_contentful_chunk [sampleChunk "hi", emptyChunk]
      0).2 1 (by decide)).trans (by decide)⟩

/-- Claim C4: in the streaming sequence the text segments are monotonically
non-decreasing in length and each is a prefix of the next (there is a suffix
extending the earlier text to the later one). -/
theorem C4_stream_texts_monotone (chunks : List Chunk) (elapsed : ℚ)
    (i : Nat) (h : i + 1 < (parse_stream_response chunks elapsed).length) :
    (∃ t,
      textOf ((parse_stream_response chunks elapsed).get ⟨i, by omega⟩) ++
          t =
        textOf ((parse_stream_response chunks elapsed).get ⟨i + 1, h⟩)) ∧
    (textOf ((parse_stream_response chunks elapsed).get
        ⟨i, by omega⟩)).length ≤
      (textOf ((parse_stream_response chunks elapsed).get
        ⟨i + 1, h⟩)).length := by
  refine ⟨stream_consecutive_ext chunks elapsed i h, ?_⟩
  rcases stream_consecutive_ext chunks elapsed i h with ⟨t, ht⟩
  rw [← ht, String.length_append]
  omega

/-- Witness for C4 on the two-chunk stream `"a"`, `"b"` at the first pair. -/
theorem C4_witness :
    (∃ t,
      textOf ((parse_stream_response [sampleChunk "a", sampleChunk "b"]
          0).get ⟨0, by decide⟩) ++ t =
        textOf ((parse_stream_response [sampleChunk "a", sampleChunk "b"]
          0).get ⟨1, by decide⟩)) ∧
    (textOf ((parse_stream_response [sampleChunk "a", sampleChunk "b"]
        0).get ⟨0, by decide⟩)).length ≤
      (textOf ((parse_stream_response [sampleChunk "a", sampleChunk "b"]
        0).get ⟨1, by decide⟩)).length :=
  C4_stream_texts_monotone [sampleChunk "a", sampleChunk "b"] 0 0 (by decide)

/-- Claim C5: when the concatenation of all streaming chunk deltas equals
the (non-empty) text of the first choice of a non-streaming response, the
final value of the streaming sequence has exactly that accumulated text,
equal to the non-streaming response's single text segment, and usage is
populated only on that final element. -/
theorem C5_stream_final_matches_nonstream (chunks : List Chunk)
    (r : ApiResponse) (e1 e2 : ℚ) (s : String) (choice : ApiChoice)
    (rest : List ApiChoice)
    (hch : r.choices = choice :: rest)
    (hcontent : choice.message.content = some s)
    (hne : s ≠ "")
    (hconcat : strConcat (chunks.map fun c => (firstDelta c).getD "") = s) :
    ∃ last,
      (parse_stream_response chunks e2).getLast? = some last ∧
      last.content = [ContentBlock.text s] ∧
      (parse_response r e1).content = [ContentBlock.text s] ∧
      (∃ u, last.usage = some u) ∧
      ∀ i (hi : i + 1 < (parse_stream_response chunks e2).length),
        ((parse_stream_response chunks e2).get ⟨i, by omega⟩).usage =
          none := by
  have hs : strConcat (chunks.filterMap chunkText) = s :=
    (strConcat_firstDelta chunks).symm.trans hconcat
  refine ⟨_, stream_getLast chunks e2, ?_, ?_, ⟨_, rfl⟩, fun i hi => ?_⟩
  · show [ContentBlock.text (strConcat (chunks.filterMap chunkText))] =
      [ContentBlock.text s]
    rw [hs]
  · simp [parse_response, hch, hcontent, hne]
  · rw [stream_usage_get]
    have := stream_length chunks e2
    rw [if_neg (by omega)]

/-- Witness for C5: deltas `"1+1"`, `"=2"` concatenate to the non-streaming
text `"1+1=2"`. -/
theorem C5_witness :
    ∃ last,
      (parse_stream_response [sampleChunk "1+1", sampleChunk "=2"]
          0).getLast? = some last ∧
      last.content = [ContentBlock.text "1+1=2"] ∧
      (parse_response
          { choices := [{ message := { content := some "1+1=2" } }]
            usage := none } 0).content = [ContentBlock.text "1+1=2"] ∧
      (∃ u, last.usage = some u) ∧
      ∀ i (hi : i + 1 <
          (parse_stream_response [sampleChunk "1+1", sampleChunk "=2"]
            0).length),
        ((parse_stream_response [sampleChunk "1+1", sampleChunk "=2"]
            0).get ⟨i, by omega⟩).usage = none :=
  C5_stream_final_matches_nonstream [sampleChunk "1+1", sampleChunk "=2"]
    { choices := [{ message := { content := some "1+1=2" } }], usage := none }
    0 0 "1+1=2" _ [] rfl rfl (by decide) (by decide)

/-- Claim C8: the final element of a streaming sequence carries a usage
record whose token counts are both zero and whose elapsed-time field is the
non-negative elapsed time (so all fields are non-negative), while every
earlier element carries no usage record. -/
theorem C8_final_usage_zero_tokens (chunks : List Chunk) (elapsed : ℚ)
    (h : 0 ≤ elapsed) :
    (∃ r, (parse_stream_response chunks elapsed).getLast? = some r ∧
      r.usage =
        some { input_tokens := 0, output_tokens := 0, time := elapsed } ∧
      (0 : ℚ) ≤ elapsed) ∧
    ∀ i (hi : i + 1 < (parse_stream_response chunks elapsed).length),
      ((parse_stream_response chunks elapsed).get ⟨i, by omega⟩).usage =
        none := by
  refine ⟨⟨_, stream_getLast chunks elapsed, rfl, h⟩, fun i hi => ?_⟩
  rw [stream_usage_get]
  have := stream_length chunks elapsed
  rw [if_neg (by omega)]

/-- Witness for C8 on the one-chunk stream `"x"` with elapsed time 1. -/
theorem C8_witness :
    (∃ r, (parse_stream_response [sampleChunk "x"] 1).getLast? = some r ∧
      r.usage = some { input_tokens := 0, output_tokens := 0, time := 1 } ∧
      (0 : ℚ) ≤ 1) ∧
    ((parse_stream_response [sampleChunk "x"] 1).get
        ⟨0, by decide⟩).usage = none :=
  ⟨(C8_final_usage_zero_tokens [sampleChunk "x"] 1 (by decide)).1,
   (C8_final_usage_zero_tokens [sampleChunk "x"] 1 (by decide)).2 0
     (by decide)⟩

/-- Claim C9: a streaming sequence is never empty; its length is one plus
the number of chunks whose first choice has non-empty delta content; and
when no chunk has such content, exactly one value is produced, with a single
empty text segment and with a usage record. -/
theorem C9_stream_nonempty (chunks : List Chunk) (elapsed : ℚ) :
    parse_stream_response chunks elapsed ≠ [] ∧
    (parse_stream_response chunks elapsed).length =
      chunks.countP (fun c => (chunkText c).isSome) + 1 ∧
    (chunks.filterMap chunkText = [] →
      parse_stream_response chunks elapsed =
        [{ content := [ContentBlock.text ""]
           usage :=
             some { input_tokens := 0, output_tokens := 0,
                    time := elapsed } }]) := by
  refine ⟨?_, ?_, ?_⟩
  · intro hnil
    have := stream_length chunks elapsed
    rw [hnil] at this
    simp at this
  · rw [stream_length, length_filterMap_eq_countP]
  · intro hfm
    rw [parse_stream_response, parse_stream_aux_eq_mkStream, hfm]
    rfl

/-- Witness for C9 on a stream of one chunk without choices and one chunk
whose delta content is the empty string: no chunk has truthy content, and
exactly one value is produced. -/
theorem C9_witness :
    parse_stream_response [emptyChunk, sampleChunk ""] 0 ≠ [] ∧
    (parse_stream_response [emptyChunk, sampleChunk ""] 0).length = 1 ∧
    parse_stream_response [emptyChunk, sampleChunk ""] 0 =
      [{ content := [ContentBlock.text ""]
         usage :=
           some { input_tokens := 0, output_tokens := 0, time := 0 } }] :=
  ⟨(C9_stream_nonempty [emptyChunk, sampleChunk ""] 0).1,
   ((C9_stream_nonempty [emptyChunk, sampleChunk ""] 0).2.1).trans
     (by decide),
   (C9_stream_nonempty [emptyChunk, sampleChunk ""] 0).2.2 (by decide)⟩

/-- Claim C6: for every non-empty message list, a call configured
non-streaming produces exactly one normalized response — a single value,
never a sequence (the transport, honoring the request's unset `stream`
flag, never returns a chunk stream). -/
theorem C6_nonstream_single_response (m : ModelConfig)
    (messages : List ChatMessage) (tools : Option (List ToolDescriptor))
    (tool_choice : Option String) (transport : Request → TransportResult)
    (elapsed : ℚ)
    (hne : messages ≠ [])
    (hstream : m.stream = false)
    (htransport : ∀ req, req.stream = false →
      ∀ cs, transport req ≠ TransportResult.streamed cs) :
    ∃ resp, call m messages tools tool_choice transport elapsed =
      some (CallResult.single resp) := by
  have hreq : (buildRequest m messages tools tool_choice).stream = false :=
    hstream
  cases ht : transport (buildRequest m messages tools tool_choice) with
  | streamed cs => exact absurd ht (htransport _ hreq cs)
  | completed r =>
    exact ⟨parse_response r elapsed, by simp [call, ht, hstream]⟩
  | raises e => exact ⟨errorResponse e, by simp [call, ht]⟩

/-- Witness for C6: a non-streaming configuration with one message and a
transport that always completes. -/
theorem C6_witness :
    ∃ resp,
      call { model_name := "m", api_key := "k", base_url := "u",
             stream := false, temperature := 1, max_tokens := 16 }
        [{ role := "user", content := "1+1=?" }] none none
        (fun _ => TransportResult.completed
          { choices := [], usage := none }) 0 =
      some (CallResult.single resp) :=
  C6_nonstream_single_response _ _ none none _ 0 (by decide) rfl
    (fun _ _ _ h => TransportResult.noConfusion h)

/-- Claim C7: a non-streaming call whose underlying response has a first
choice with (non-empty) text content returns a single response whose content
is a single text segment equal to that choice's text; and when the client
reports usage with explicit token counters, the usage record's input and
output token counts equal the client's prompt and completion counts. -/
theorem C7_nonstream_maps_first_choice (m : ModelConfig)
    (messages : List ChatMessage) (tools : Option (List ToolDescriptor))
    (tool_choice : Option String) (transport : Request → TransportResult)
    (elapsed : ℚ) (r : ApiResponse) (choice : ApiChoice)
    (rest : List ApiChoice) (s : String)
    (hstream : m.stream = false)
    (ht : transport (buildRequest m messages tools tool_choice) =
      TransportResult.completed r)
    (hch : r.choices = choice :: rest)
    (hcontent : choice.message.content = some s)
    (hne : s ≠ "") :
    ∃ resp,
      call m messages tools tool_choice transport elapsed =
        some (CallResult.single resp) ∧
      resp.content = [ContentBlock.text s] ∧
      ∀ u p c, r.usage = some u → u.prompt_tokens = some p →
        u.completion_tokens = some c →
        resp.usage =
          some { input_tokens := p, output_tokens := c, time := elapsed } := by
  refine ⟨parse_response r elapsed, by simp [call, ht, hstream], ?_, ?_⟩
  · simp [parse_response, hch, hcontent, hne]
  · intro u p c hu hp hc
    simp [parse_response, hu, hp, hc]

/-- Witness for C7: a completed response with text `"2"` and usage counters
3 and 5. -/
theorem C7_witness :
    ∃ resp,
      call { model_name := "m", api_key := "k", base_url := "u",
             stream := false, temperature := 1, max_tokens := 16 }
        [{ role := "user", content := "1+1=?" }] none none
        (fun _ => TransportResult.completed
          { choices := [{ message := { content := some "2" } }]
            usage :=
              some { prompt_tokens := some 3, completion_tokens := some 5 } })
        0 =
      some (CallResult.single resp) ∧
      resp.content = [ContentBlock.text "2"] ∧
      ∀ u p c,
        ({ choices := [{ message := { content := some "2" } }]
           usage :=
             some { prompt_tokens := some 3, completion_tokens := some 5 } } :
            ApiResponse).usage = some u →
        u.prompt_tokens = some p → u.completion_tokens = some c →
        resp.usage =
          some { input_tokens := p, output_tokens := c, time := 0 } :=
  C7_nonstream_maps_first_choice _ _ none none _ 0 _ _ [] "2" rfl rfl rfl
    rfl (by decide)

/-- Claim C10: a non-streaming call whose underlying response has no choices
or whose first choice's message content is absent or empty returns, without
raising, a single response whose content list is empty — zero segments, not
an empty text segment. -/
theorem C10_nonstream_empty_content (m : ModelConfig)
    (messages : List ChatMessage) (tools : Option (List ToolDescriptor))
    (tool_choice : Option String) (transport : Request → TransportResult)
    (elapsed : ℚ) (r : ApiResponse)
    (hstream : m.stream = false)
    (ht : transport (buildRequest m messages tools tool_choice) =
      TransportResult.completed r)
    (hempty : r.choices = [] ∨
      ∃ choice rest, r.choices = choice :: rest ∧
        (choice.message.content = none ∨
          choice.message.content = some "")) :
    ∃ resp,
      call m messages tools tool_choice transport elapsed =
        some (CallResult.single resp) ∧
      resp.content = [] := by
  refine ⟨parse_response r elapsed, by simp [call, ht, hstream], ?_⟩
  rcases hempty with hnil | ⟨choice, rest, hch, hcc⟩
  · simp [parse_response, hnil]
  · rcases hcc with hc | hc <;> simp [parse_response, hch, hc]

/-- Witness for C10: a completed response whose single choice has empty
message content. -/
theorem C10_witness :
    ∃ resp,
      call { model_name := "m", api_key := "k", base_url := "u",
             stream := false, temperature := 1, max_tokens := 16 }
        [{ role := "user", content := "1+1=?" }] none none
        (fun _ => TransportResult.completed
          { choices := [{ message := { content := some "" } }]
            usage := none }) 0 =
      some (CallResult.single resp) ∧
      resp.content = [] :=
  C10_nonstream_empty_content _ _ none none _ 0 _ rfl rfl
    (Or.inr ⟨_, [], rfl, Or.inr rfl⟩)

end CustomModelSpec
